import Mathlib

/-!
Verification development for the user CRUD gRPC service
(`server/interceptor.go`, `server/main.go`, the auth helper file with
`generateToken`, and the surrounding spec).

Shallow embedding conventions:
* Go strings handled character by character in the interceptor are `List Char`;
  strings only compared for equality are Lean `String`s.
* `strings.ToUpper` / `strings.ToLower` are modelled by ASCII simple casing
  (`Char.toUpper` / `Char.toLower`); for the comparisons the code performs
  (against the all-ASCII constants "BEARER " and "admin") this agrees with
  Go's Unicode casing on every input that can make those comparisons succeed.
* The JWT library (`golang-jwt/jwt/v5`) is modelled symbolically: a signed
  token is the claim set together with the key that signed it, and
  verification succeeds exactly when the verifying key matches the signing
  key and the expiry instant is strictly after the verification instant
  (jwt/v5 rejects a token whose `exp` is at or before "now").
* The relational store is a list of rows plus a fresh-id counter; the single
  schema constraint modelled is the unique email column.  Connection-level
  store failures are outside the model.
-/

deriving instance DecidableEq for Except

/-- gRPC status codes used by this server (`google.golang.org/grpc/codes`). -/
inductive Code where
  | ok
  | unauthenticated
  | permissionDenied
  | notFound
  | internal
deriving DecidableEq, Repr

/-- A gRPC error as produced by `status.Errorf(code, msg)`. -/
structure GrpcStatus where
  code : Code
  msg : String
deriving DecidableEq, Repr

/-- `var jwtKey = []byte("my_secret_key")` from the auth helper file. -/
def jwtKey : String := "my_secret_key"

/-- The `Claims` struct from the auth helper file: `Email`, `Role`, and the
embedded `RegisteredClaims` of which only `ExpiresAt` is set (in seconds). -/
structure Claims where
  email : String
  role : String
  expiresAt : Nat
deriving DecidableEq, Repr

/-- Symbolic model of a serialized signed JWT: the claim set plus the key the
signature was computed with (HMAC-SHA256 in the source; the symbolic model
keeps only what the signature proves). -/
structure SignedToken where
  claims : Claims
  sigKey : String
deriving DecidableEq, Repr

/-- `generateToken(email, role)` from the auth helper file: expiry is
`now + 24h`, claims carry the given email and role, the token is signed with
`jwtKey`.  `now` (seconds) is passed explicitly; the `error` return of
`SignedString` (marshalling only, never taken on this input shape) is not
modelled. -/
def generateToken (now : Nat) (email role : String) : SignedToken :=
  { claims := { email := email, role := role, expiresAt := now + 24 * 60 * 60 }
    sigKey := jwtKey }

/-- Symbolic model of `jwt.ParseWithClaims` followed by the `tkn.Valid` check:
succeeds iff the token was signed with the verifying key and its expiry is
strictly after the verification instant, returning the embedded claims
unchanged. -/
def parseWithClaims (key : String) (now : Nat) (t : SignedToken) : Option Claims :=
  if t.sigKey = key ∧ now < t.claims.expiresAt then some t.claims else none

/-- `strings.ToUpper` restricted to ASCII simple casing, on the byte/char
view of a Go string. -/
def stringsToUpper (s : List Char) : List Char :=
  s.map Char.toUpper

/-- `strings.ToLower` restricted to ASCII simple casing. -/
def stringsToLower (s : String) : String :=
  ⟨s.data.map Char.toLower⟩

/-- `publicMethods` from `server/interceptor.go`. -/
def publicMethods : List String :=
  ["/user.UserService/Login", "/user.UserService/Register"]

/-- `adminMethods` from `server/interceptor.go`. -/
def adminMethods : List String :=
  ["/user.UserService/CreateUser", "/user.UserService/UpdateUser",
   "/user.UserService/DeleteUser", "/user.UserService/GetUser"]

/-- Incoming call metadata (`metadata.MD`): a key/values map, rendered as an
association list; `md[k]` for an absent key is the empty slice. -/
def Metadata : Type := List (String × List (List Char))

/-- Go map indexing `md[k]`: the stored slice, or the zero value (empty) when
the key is absent. -/
def mdIndex (md : Metadata) (k : String) : List (List Char) :=
  match md.find? (fun p => p.1 = k) with
  | some p => p.2
  | none => []

/-- Lines 46-49 of `server/interceptor.go`:
`if len(tokenString) > 7 && strings.ToUpper(tokenString[0:7]) == "BEARER " {
tokenString = tokenString[7:] }`. -/
def stripBearer (s : List Char) : List Char :=
  if s.length > 7 ∧ stringsToUpper (s.take 7) = "BEARER ".toList then s.drop 7 else s

/-- Outcome of the interceptor: either the wrapped handler was invoked
(`handled`) or the call was rejected before reaching it. -/
inductive Outcome where
  | handled
  | rejected (st : GrpcStatus)
deriving DecidableEq, Repr

/-- `AuthInterceptor` from `server/interceptor.go`.  `parse` abstracts the
call `jwt.ParseWithClaims(tokenString, claims, keyFunc)` together with the
`err == nil && tkn.Valid` check (see `parseWithClaims` for its instantiation
on the symbolic token model); `md` is `metadata.FromIncomingContext(ctx)`
(`none` when the context carries no metadata). -/
def AuthInterceptor (parse : List Char → Option Claims)
    (fullMethod : String) (md : Option Metadata) : Outcome :=
  if publicMethods.contains fullMethod then
    .handled
  else
    match md with
    | none => .rejected ⟨.unauthenticated, "metadata missing"⟩
    | some m =>
      match mdIndex m "authorization" with
      | [] => .rejected ⟨.unauthenticated, "token missing"⟩
      | v :: _ =>
        let tokenString := stripBearer v
        match parse tokenString with
        | none => .rejected ⟨.unauthenticated, "invalid token"⟩
        | some claims =>
          if adminMethods.contains fullMethod ∧ ¬ stringsToLower claims.role = "admin" then
            .rejected ⟨.permissionDenied, "Access Denied: You are not an admin"⟩
          else
            .handled

example : stripBearer "Bearer abc".toList = "abc".toList := by decide
example : stripBearer "bEaReR xyz".toList = "xyz".toList := by decide
example : stripBearer "Bearer ".toList = "Bearer ".toList := by decide
example : stripBearer "abc".toList = "abc".toList := by decide
example :
    AuthInterceptor (fun _ => none) "/user.UserService/Login" none = .handled := by decide

/-- A row of the `users` table: serial integer id, name, email (unique),
password digest, role. -/
structure Row where
  id : Int
  name : String
  email : String
  password : String
  role : String
deriving DecidableEq, Repr

/-- The `users` table: its rows plus the next value of the serial id
sequence. -/
structure DBState where
  rows : List Row
  nextId : Int
deriving DecidableEq, Repr

/-- `INSERT INTO users(name, email, password, role) VALUES(...) RETURNING id`:
fails on the unique email constraint, otherwise appends a row with the next
serial id and returns that id. -/
def insertUsersRow (db : DBState) (name email password role : String) :
    Except String (Int × DBState) :=
  if db.rows.any (fun r => decide (r.email = email)) then
    .error "duplicate key value violates unique constraint"
  else
    .ok (db.nextId,
      { rows := db.rows ++ [⟨db.nextId, name, email, password, role⟩]
        nextId := db.nextId + 1 })

/-- `UPDATE users SET name=$1, email=$2 WHERE id=$3` via `db.Exec`: rewrites
every row whose id matches and reports the affected-row count; fails only on
the unique email constraint (an updated row colliding with a distinct row's
email). -/
def execUpdateUsers (db : DBState) (name email : String) (id : Int) :
    Except String (Nat × DBState) :=
  let affected := (db.rows.filter (fun r => decide (r.id = id))).length
  if 0 < affected ∧ db.rows.any (fun r => decide (¬ r.id = id ∧ r.email = email)) then
    .error "duplicate key value violates unique constraint"
  else
    .ok (affected,
      { rows := db.rows.map (fun r =>
          if r.id = id then ⟨r.id, name, email, r.password, r.role⟩ else r)
        nextId := db.nextId })

/-- `DELETE FROM users WHERE id=$1` via `db.Exec`: removes every row whose id
matches and reports the affected-row count; a delete raises no constraint
error. -/
def execDeleteUsers (db : DBState) (id : Int) : Except String (Nat × DBState) :=
  .ok ((db.rows.filter (fun r => decide (r.id = id))).length,
    { rows := db.rows.filter (fun r => decide (¬ r.id = id))
      nextId := db.nextId })

/-- Modelled from the spec: the `User` protobuf message (the `user.proto`
file is not under `src/`), carrying exactly id, name, email and role —
"issued record (id, name, email, role) — password never echoed" — matching
every construction site in `server/main.go`.  A field left unset in a Go
struct literal holds its zero value (`0` / `""`). -/
structure User where
  id : Int
  name : String
  email : String
  role : String
deriving DecidableEq, Repr

/-- The `UserResponse` protobuf message. -/
structure UserResponse where
  user : User
deriving DecidableEq, Repr

/-- The `LoginResponse` protobuf message (on the symbolic token model). -/
structure LoginResponse where
  token : SignedToken
deriving DecidableEq, Repr

/-- The `DeleteUserResponse` protobuf message. -/
structure DeleteUserResponse where
  message : String
deriving DecidableEq, Repr

/-- The `RegisterRequest` protobuf message. -/
structure RegisterRequest where
  name : String
  email : String
  password : String
  role : String
deriving DecidableEq, Repr

/-- The `LoginRequest` protobuf message. -/
structure LoginRequest where
  email : String
  password : String
deriving DecidableEq, Repr

/-- The `UpdateUserRequest` protobuf message. -/
structure UpdateUserRequest where
  id : Int
  name : String
  email : String
deriving DecidableEq, Repr

/-- The `DeleteUserRequest` protobuf message. -/
structure DeleteUserRequest where
  id : Int
deriving DecidableEq, Repr

/-- The `GetUserRequest` protobuf message. -/
structure GetUserRequest where
  id : Int
deriving DecidableEq, Repr

/-- `Register` from `server/main.go`.  `hp` abstracts `hashPassword` (its
definition is not under `src/`; per the spec it is a one-way hash returning
a digest and an error): the source binds `hashedPwd, _ := hashPassword(...)`,
keeping only the first component. -/
def Register (hp : String → String × Option String) (db : DBState)
    (req : RegisterRequest) : Except GrpcStatus (UserResponse × DBState) :=
  let hashedPwd := (hp req.password).1
  let userRole := if req.role = "" then "user" else req.role
  match insertUsersRow db req.name req.email hashedPwd userRole with
  | .error e => .error ⟨.internal, "cannot create user: " ++ e⟩
  | .ok (id, db') =>
    .ok (⟨⟨id, req.name, req.email, userRole⟩⟩, db')

/-- `Login` from `server/main.go`.  `cp` abstracts `checkPassword(plain,
storedHash)` (definition not under `src/`; per the spec it compares the
plaintext against the stored digest); `now` is the instant `generateToken`
reads as the current time. -/
def Login (cp : String → String → Bool) (db : DBState) (now : Nat)
    (req : LoginRequest) : Except GrpcStatus LoginResponse :=
  match db.rows.find? (fun r => decide (r.email = req.email)) with
  | none => .error ⟨.unauthenticated, "user not found"⟩
  | some row =>
    if ¬ cp req.password row.password then
      .error ⟨.unauthenticated, "incorrect password"⟩
    else
      .ok ⟨generateToken now req.email row.role⟩

/-- `GetUser` from `server/main.go`: `sql.ErrNoRows` becomes a not-found
status; a found row is returned with all four columns. -/
def GetUser (db : DBState) (req : GetUserRequest) : Except GrpcStatus UserResponse :=
  match db.rows.find? (fun r => decide (r.id = req.id)) with
  | none => .error ⟨.notFound, "user not found"⟩
  | some r => .ok ⟨⟨r.id, r.name, r.email, r.role⟩⟩

/-- `UpdateUser` from `server/main.go`: a store error propagates raw; on
success the response is built from the request fields (`Role` left at its
zero value), never re-read from the store. -/
def UpdateUser (db : DBState) (req : UpdateUserRequest) :
    Except String (UserResponse × DBState) :=
  match execUpdateUsers db req.name req.email req.id with
  | .error e => .error e
  | .ok (_, db') => .ok (⟨⟨req.id, req.name, req.email, ""⟩⟩, db')

/-- `DeleteUser` from `server/main.go`: a store error propagates raw; on
success the response is the fixed message "User deleted", with the
affected-row count never inspected. -/
def DeleteUser (db : DBState) (req : DeleteUserRequest) :
    Except String (DeleteUserResponse × DBState) :=
  match execDeleteUsers db req.id with
  | .error e => .error e
  | .ok (_, db') => .ok (⟨"User deleted"⟩, db')

example :
    Register (fun p => (p ++ "#h", none)) ⟨[], 1⟩ ⟨"John", "john@x.com", "pw123", ""⟩ =
      .ok (⟨⟨1, "John", "john@x.com", "user"⟩⟩,
        ⟨[⟨1, "John", "john@x.com", "pw123#h", "user"⟩], 2⟩) := by decide
example :
    Login (fun p h => p ++ "#h" == h) ⟨[⟨1, "John", "john@x.com", "pw123#h", "user"⟩], 2⟩
      50 ⟨"john@x.com", "pw123"⟩ = .ok ⟨generateToken 50 "john@x.com" "user"⟩ := by decide
example :
    UpdateUser ⟨[], 1⟩ ⟨7, "A", "a@x.com"⟩ = .ok (⟨⟨7, "A", "a@x.com", ""⟩⟩, ⟨[], 1⟩) := by
  decide
example :
    DeleteUser ⟨[], 1⟩ ⟨7⟩ = .ok (⟨"User deleted"⟩, ⟨[], 1⟩) := by decide

/-- A method in the admin set is not in the public set (both sets are the
concrete literals of `server/interceptor.go`). -/
lemma admin_not_public (m : String) (hm : m ∈ adminMethods) :
    m ∉ publicMethods := by
  simp only [adminMethods, List.mem_cons, List.not_mem_nil, or_false] at hm
  rcases hm with h | h | h | h <;> subst h <;> decide

/-- C2: a call to a public-set method (Login, Register) is handled
unconditionally: for every verification function `parse` and every metadata
state `md` — including `none` (no metadata) and garbage entries — the
interceptor invokes the wrapped handler without consulting either. -/
theorem authInterceptor_public_bypass (parse : List Char → Option Claims)
    (m : String) (md : Option Metadata)
    (h : m ∈ publicMethods) :
    AuthInterceptor parse m md = .handled := by
  simp [AuthInterceptor, h]

/-- C2 witness: Login with no metadata and a rejecting verifier is handled. -/
theorem authInterceptor_public_bypass_witness :
    "/user.UserService/Login" ∈ publicMethods ∧
      AuthInterceptor (fun _ => none) "/user.UserService/Login" none = .handled :=
  ⟨by decide, authInterceptor_public_bypass (fun _ => none) "/user.UserService/Login"
    none (by decide)⟩

/-- C3: on a non-public method, a missing metadata container is rejected
unauthenticated with "metadata missing", and an absent or empty
"authorization" entry is rejected unauthenticated with "token missing";
`Outcome.rejected` is by construction the outcome in which the wrapped
handler (and hence any storage access) never runs, and both rejections
differ from `Outcome.handled`. -/
theorem authInterceptor_missing_metadata_or_token
    (parse : List Char → Option Claims) (m : String) (mdl : Metadata)
    (hpub : m ∉ publicMethods) :
    AuthInterceptor parse m none = .rejected ⟨.unauthenticated, "metadata missing"⟩ ∧
    (mdIndex mdl "authorization" = [] →
      AuthInterceptor parse m (some mdl) =
        .rejected ⟨.unauthenticated, "token missing"⟩) ∧
    AuthInterceptor parse m none ≠ .handled ∧
    (mdIndex mdl "authorization" = [] →
      AuthInterceptor parse m (some mdl) ≠ .handled) := by
  refine ⟨?_, ?_, ?_, ?_⟩
  · simp [AuthInterceptor, hpub]
  · intro h
    simp [AuthInterceptor, hpub, h]
  · simp [AuthInterceptor, hpub]
  · intro h
    simp [AuthInterceptor, hpub, h]

/-- C3 witness: GetUser with no metadata, and with metadata lacking an
"authorization" entry. -/
theorem authInterceptor_missing_metadata_or_token_witness :
    "/user.UserService/GetUser" ∉ publicMethods ∧
      AuthInterceptor (fun _ => none) "/user.UserService/GetUser" none =
        .rejected ⟨.unauthenticated, "metadata missing"⟩ ∧
      AuthInterceptor (fun _ => none) "/user.UserService/GetUser"
          (some [("other", [['x']])]) =
        .rejected ⟨.unauthenticated, "token missing"⟩ := by
  have h := authInterceptor_missing_metadata_or_token (fun _ => none)
    "/user.UserService/GetUser" [("other", [['x']])] (by decide)
  exact ⟨by decide, h.1, h.2.1 (by decide)⟩

/-- C1: on an admin-set method carrying a token that passes verification,
a role claim whose lower-casing differs from "admin" is rejected with
permission-denied — a code distinct from unauthenticated — without invoking
the wrapped handler, while a role lower-casing to "admin" lets the call
proceed to the handler. -/
theorem authInterceptor_admin_role_gate
    (parse : List Char → Option Claims) (m : String) (mdl : Metadata)
    (v : List Char) (rest : List (List Char)) (c : Claims)
    (hm : m ∈ adminMethods)
    (hv : mdIndex mdl "authorization" = v :: rest)
    (hc : parse (stripBearer v) = some c) :
    (¬ stringsToLower c.role = "admin" →
      AuthInterceptor parse m (some mdl) =
        .rejected ⟨.permissionDenied, "Access Denied: You are not an admin"⟩ ∧
      AuthInterceptor parse m (some mdl) ≠ .handled) ∧
    (stringsToLower c.role = "admin" →
      AuthInterceptor parse m (some mdl) = .handled) ∧
    Code.permissionDenied ≠ Code.unauthenticated := by
  have hpub : m ∉ publicMethods := admin_not_public m hm
  refine ⟨?_, ?_, by decide⟩
  · intro hrole
    constructor
    · simp [AuthInterceptor, hpub, hv, hc, hm, hrole]
    · simp [AuthInterceptor, hpub, hv, hc, hm, hrole]
  · intro hrole
    simp [AuthInterceptor, hpub, hv, hc, hm, hrole]

/-- C1 witness: a verified token with role "User" is denied on DeleteUser,
one with role "Admin" proceeds. -/
theorem authInterceptor_admin_role_gate_witness :
    AuthInterceptor (fun _ => some ⟨"a@b.com", "User", 99⟩)
        "/user.UserService/DeleteUser" (some [("authorization", [['t']])]) =
      .rejected ⟨.permissionDenied, "Access Denied: You are not an admin"⟩ ∧
    AuthInterceptor (fun _ => some ⟨"a@b.com", "Admin", 99⟩)
        "/user.UserService/DeleteUser" (some [("authorization", [['t']])]) =
      .handled := by
  have h1 := authInterceptor_admin_role_gate (fun _ => some ⟨"a@b.com", "User", 99⟩)
    "/user.UserService/DeleteUser" [("authorization", [['t']])] ['t'] [] ⟨"a@b.com", "User", 99⟩
    (by decide) (by decide) (by decide)
  have h2 := authInterceptor_admin_role_gate (fun _ => some ⟨"a@b.com", "Admin", 99⟩)
    "/user.UserService/DeleteUser" [("authorization", [['t']])] ['t'] [] ⟨"a@b.com", "Admin", 99⟩
    (by decide) (by decide) (by decide)
  exact ⟨(h1.1 (by decide)).1, h2.2.1 (by decide)⟩

/-- C5: round-trip of the credential codec — a token issued by
`generateToken` and verified with the same key at any instant strictly
before its expiry (issue time + 24h) yields exactly the embedded email and
role, unchanged. -/
theorem generateToken_parse_roundtrip (email role : String)
    (issueTime checkTime : Nat)
    (h : checkTime < issueTime + 24 * 60 * 60) :
    parseWithClaims jwtKey checkTime (generateToken issueTime email role) =
      some ⟨email, role, issueTime + 24 * 60 * 60⟩ := by
  simp [parseWithClaims, generateToken, h]

/-- C5 witness: issue at time 0, verify at time 86399. -/
theorem generateToken_parse_roundtrip_witness :
    86399 < 0 + 24 * 60 * 60 ∧
      parseWithClaims jwtKey 86399 (generateToken 0 "a@b.com" "admin") =
        some ⟨"a@b.com", "admin", 0 + 24 * 60 * 60⟩ :=
  ⟨by decide, generateToken_parse_roundtrip "a@b.com" "admin" 0 86399 (by decide)⟩

/-- C8 counterexample: the string "Bearer " begins with the 7-character
prefix under case-insensitive comparison (it equals it), yet the code's
strict `len(tokenString) > 7` guard leaves it whole: it is not stripped to
the empty remainder, so the whole string — not the remainder — is what
reaches verification. -/
theorem stripBearer_exact_seven_counterexample :
    stringsToUpper ("Bearer ".toList.take 7) = "BEARER ".toList ∧
    "Bearer ".toList.length = 7 ∧
    stripBearer "Bearer ".toList = "Bearer ".toList ∧
    "Bearer ".toList.drop 7 = [] ∧
    "Bearer ".toList ≠ [] := by decide

/-- C8 amended: a credential string strictly longer than 7 characters whose
first 7 characters upper-case to "BEARER " has that prefix stripped, and
only the remainder reaches verification; any other credential string —
including one exactly equal to the prefix — is verified whole and
unmodified.  The last conjunct states that on a non-public call the
interceptor consults the verifier only at `stripBearer v`. -/
theorem stripBearer_amended (parse₁ parse₂ : List Char → Option Claims)
    (m : String) (mdl : Metadata) (v : List Char) (rest : List (List Char))
    (_hpub : m ∉ publicMethods)
    (hv : mdIndex mdl "authorization" = v :: rest) :
    (v.length > 7 ∧ stringsToUpper (v.take 7) = "BEARER ".toList →
      stripBearer v = v.drop 7) ∧
    (¬ (v.length > 7 ∧ stringsToUpper (v.take 7) = "BEARER ".toList) →
      stripBearer v = v) ∧
    (parse₁ (stripBearer v) = parse₂ (stripBearer v) →
      AuthInterceptor parse₁ m (some mdl) = AuthInterceptor parse₂ m (some mdl)) := by
  refine ⟨?_, ?_, ?_⟩
  · intro h
    simp [stripBearer, h]
  · intro h
    simp [stripBearer]
    intro h1 h2
    exact absurd ⟨h1, h2⟩ h
  · intro h
    simp only [AuthInterceptor, hv, h]

/-- C8 amended witness: "bearer abc" (length 10) is stripped to "abc", and
the interceptor's outcome agrees for two verifiers that agree at "abc". -/
theorem stripBearer_amended_witness :
    stripBearer "bearer abc".toList = "bearer abc".toList.drop 7 ∧
    AuthInterceptor (fun s => if s = "abc".toList then some ⟨"e", "admin", 9⟩ else none)
        "/user.UserService/GetUser" (some [("authorization", ["bearer abc".toList])]) =
      AuthInterceptor (fun s => if s = "abc".toList then some ⟨"e", "admin", 9⟩ else some ⟨"x", "user", 1⟩)
        "/user.UserService/GetUser" (some [("authorization", ["bearer abc".toList])]) := by
  have h := stripBearer_amended
    (fun s => if s = "abc".toList then some ⟨"e", "admin", 9⟩ else none)
    (fun s => if s = "abc".toList then some ⟨"e", "admin", 9⟩ else some ⟨"x", "user", 1⟩)
    "/user.UserService/GetUser" [("authorization", ["bearer abc".toList])]
    "bearer abc".toList [] (by decide) (by decide)
  exact ⟨h.1 (by decide), h.2.2 (by decide)⟩

/-- When no row carries the given id, the UPDATE's row rewrite is the
identity. -/
lemma map_update_no_match (rows : List Row) (id : Int) (name email : String)
    (h : ∀ r ∈ rows, r.id ≠ id) :
    rows.map (fun r =>
      if r.id = id then ⟨r.id, name, email, r.password, r.role⟩ else r) = rows := by
  induction rows with
  | nil => rfl
  | cons a t ih =>
    simp only [List.map_cons, if_neg (h a (List.mem_cons_self a t)),
      ih (fun r hr => h r (List.mem_cons_of_mem a hr))]

/-- When no row carries the given id, the WHERE clause matches nothing. -/
lemma filter_match_nil (rows : List Row) (id : Int)
    (h : ∀ r ∈ rows, r.id ≠ id) :
    rows.filter (fun r => decide (r.id = id)) = [] := by
  induction rows with
  | nil => rfl
  | cons a t ih =>
    simp only [List.filter_cons, decide_eq_true_eq]
    rw [if_neg (h a (List.mem_cons_self a t))]
    exact ih (fun r hr => h r (List.mem_cons_of_mem a hr))

/-- C4 counterexample: a store with one registered user, a password check
that compares for plain equality, and two failing Login calls — one with an
unknown email, one with a wrong password — produce unauthenticated failures
with two distinct messages ("user not found" vs "incorrect password"), so
the external message is not identical in the two cases. -/
theorem login_distinct_messages_counterexample :
    Login (fun p h => p == h) ⟨[⟨1, "J", "j@x.com", "secret", "user"⟩], 2⟩ 0
        ⟨"a@x.com", "pw"⟩ = .error ⟨.unauthenticated, "user not found"⟩ ∧
    Login (fun p h => p == h) ⟨[⟨1, "J", "j@x.com", "secret", "user"⟩], 2⟩ 0
        ⟨"j@x.com", "wrong"⟩ = .error ⟨.unauthenticated, "incorrect password"⟩ ∧
    ("user not found" : String) ≠ "incorrect password" := by decide

/-- C4 amended: a Login that fails because no record matches the email, and
one that fails because the stored hash does not match, both produce an
unauthenticated failure, but with distinct external messages ("user not
found" vs "incorrect password"), so a caller can tell which check failed. -/
theorem login_failure_unauthenticated_distinct_messages
    (cp : String → String → Bool) (db : DBState) (now : Nat) (req : LoginRequest) :
    (db.rows.find? (fun r => decide (r.email = req.email)) = none →
      Login cp db now req = .error ⟨.unauthenticated, "user not found"⟩) ∧
    (∀ row, db.rows.find? (fun r => decide (r.email = req.email)) = some row →
      cp req.password row.password = false →
      Login cp db now req = .error ⟨.unauthenticated, "incorrect password"⟩) ∧
    ("user not found" : String) ≠ "incorrect password" := by
  refine ⟨?_, ?_, by decide⟩
  · intro h
    simp [Login, h]
  · intro row h hcp
    simp [Login, h, hcp]

/-- C4 amended witness: the two failing calls of the counterexample, derived
from the general statement. -/
theorem login_failure_unauthenticated_distinct_messages_witness :
    Login (fun p h => p == h) ⟨[⟨1, "J", "j@x.com", "secret", "user"⟩], 2⟩ 0
        ⟨"a@x.com", "pw"⟩ = .error ⟨.unauthenticated, "user not found"⟩ ∧
    Login (fun p h => p == h) ⟨[⟨1, "J", "j@x.com", "secret", "user"⟩], 2⟩ 0
        ⟨"j@x.com", "wrong"⟩ = .error ⟨.unauthenticated, "incorrect password"⟩ := by
  have h1 := login_failure_unauthenticated_distinct_messages (fun p h => p == h)
    ⟨[⟨1, "J", "j@x.com", "secret", "user"⟩], 2⟩ 0 ⟨"a@x.com", "pw"⟩
  have h2 := login_failure_unauthenticated_distinct_messages (fun p h => p == h)
    ⟨[⟨1, "J", "j@x.com", "secret", "user"⟩], 2⟩ 0 ⟨"j@x.com", "wrong"⟩
  exact ⟨h1.1 (by decide),
    h2.2.1 ⟨1, "J", "j@x.com", "secret", "user"⟩ (by decide) (by decide)⟩

/-- C6: every successful UpdateUser response is synthesized from the
request's id, name and email (role at its zero value), never re-read from
the store; and when no row carries the requested id the call still returns
that success response, with the store unchanged (zero rows affected) and no
error surfaced. -/
theorem updateUser_echoes_request (db : DBState) (req : UpdateUserRequest) :
    (∀ resp db', UpdateUser db req = .ok (resp, db') →
      resp = ⟨⟨req.id, req.name, req.email, ""⟩⟩) ∧
    ((∀ r ∈ db.rows, r.id ≠ req.id) →
      UpdateUser db req = .ok (⟨⟨req.id, req.name, req.email, ""⟩⟩, db)) := by
  constructor
  · intro resp db' h
    cases hx : execUpdateUsers db req.name req.email req.id with
    | error e =>
      rw [UpdateUser, hx] at h
      cases h
    | ok p =>
      rw [UpdateUser, hx] at h
      cases h
      rfl
  · intro h
    obtain ⟨rows, nid⟩ := db
    have hf : rows.filter (fun r => decide (r.id = req.id)) = [] :=
      filter_match_nil rows req.id h
    have hm : rows.map (fun r =>
        if r.id = req.id then ⟨r.id, req.name, req.email, r.password, r.role⟩ else r) = rows :=
      map_update_no_match rows req.id req.name req.email h
    simp [UpdateUser, execUpdateUsers, hf, hm]

/-- C6 witness: updating id 7 in a store holding only id 1 succeeds, echoes
the request, and leaves the store unchanged. -/
theorem updateUser_echoes_request_witness :
    UpdateUser ⟨[⟨1, "J", "j@x.com", "secret", "user"⟩], 2⟩ ⟨7, "N", "n@x.com"⟩ =
      .ok (⟨⟨7, "N", "n@x.com", ""⟩⟩, ⟨[⟨1, "J", "j@x.com", "secret", "user"⟩], 2⟩) :=
  (updateUser_echoes_request ⟨[⟨1, "J", "j@x.com", "secret", "user"⟩], 2⟩
    ⟨7, "N", "n@x.com"⟩).2 (by decide)

/-- C7: for every Register call, every success stores exactly the digest
`hashPassword` produced (the password is hashed before storage) and responds
with exactly the record (id, name, email, role) — the `User` message has no
password field, so neither the plaintext nor the digest is echoed — with an
empty role field defaulting to "user" in both the inserted row and the
response; and every call whose email is fresh does succeed this way. -/
theorem register_defaults_role_and_hides_password
    (hp : String → String × Option String) (db : DBState) (req : RegisterRequest) :
    (∀ resp db', Register hp db req = .ok (resp, db') →
      resp = ⟨⟨db.nextId, req.name, req.email,
        if req.role = "" then "user" else req.role⟩⟩ ∧
      db'.rows = db.rows ++ [⟨db.nextId, req.name, req.email, (hp req.password).1,
        if req.role = "" then "user" else req.role⟩]) ∧
    ((∀ r ∈ db.rows, r.email ≠ req.email) →
      Register hp db req =
        .ok (⟨⟨db.nextId, req.name, req.email,
            if req.role = "" then "user" else req.role⟩⟩,
          ⟨db.rows ++ [⟨db.nextId, req.name, req.email, (hp req.password).1,
              if req.role = "" then "user" else req.role⟩],
            db.nextId + 1⟩)) := by
  constructor
  · intro resp db' hok
    cases hd : db.rows.any (fun r => decide (r.email = req.email)) with
    | true =>
      rw [Register] at hok
      simp only [insertUsersRow, hd, if_true] at hok
      cases hok
    | false =>
      rw [Register] at hok
      simp only [insertUsersRow, hd, Bool.false_eq_true, if_false] at hok
      cases hok
      exact ⟨rfl, rfl⟩
  · intro hdup
    have hany : db.rows.any (fun r => decide (r.email = req.email)) = false := by
      simpa using hdup
    simp [Register, insertUsersRow, hany]

/-- C7 witness: registering John with an empty role against an empty store
(role defaults to "user"), and registering Ann with role "admin" (role kept);
both store the digest and echo only id, name, email, role. -/
theorem register_defaults_role_and_hides_password_witness :
    Register (fun p => (p ++ "#h", none)) ⟨[], 1⟩ ⟨"John", "john@x.com", "pw123", ""⟩ =
      .ok (⟨⟨1, "John", "john@x.com", "user"⟩⟩,
        ⟨[⟨1, "John", "john@x.com", "pw123#h", "user"⟩], 2⟩) ∧
    Register (fun p => (p ++ "#h", none)) ⟨[], 1⟩ ⟨"Ann", "ann@x.com", "pw9", "admin"⟩ =
      .ok (⟨⟨1, "Ann", "ann@x.com", "admin"⟩⟩,
        ⟨[⟨1, "Ann", "ann@x.com", "pw9#h", "admin"⟩], 2⟩) := by
  have h1 := (register_defaults_role_and_hides_password (fun p => (p ++ "#h", none))
    ⟨[], 1⟩ ⟨"John", "john@x.com", "pw123", ""⟩).2 (by decide)
  have h2 := (register_defaults_role_and_hides_password (fun p => (p ++ "#h", none))
    ⟨[], 1⟩ ⟨"Ann", "ann@x.com", "pw9", "admin"⟩).2 (by decide)
  exact ⟨by simpa using h1, by simpa using h2⟩

/-- C9: Register never fails because of a password-hashing error — two hash
functions returning the same digest at the request's password, whatever
their error components, give identical results (the error is discarded), and
any successful Register inserts exactly the digest the hash function
returned as the stored password credential. -/
theorem register_ignores_hash_error
    (hp hp' : String → String × Option String) (db : DBState) (req : RegisterRequest)
    (h : (hp req.password).1 = (hp' req.password).1) :
    Register hp db req = Register hp' db req ∧
    (∀ resp db', Register hp db req = .ok (resp, db') →
      db'.rows = db.rows ++ [⟨db.nextId, req.name, req.email, (hp req.password).1,
        if req.role = "" then "user" else req.role⟩]) := by
  constructor
  · simp [Register, h]
  · intro resp db' hok
    cases hd : db.rows.any (fun r => decide (r.email = req.email)) with
    | true =>
      rw [Register] at hok
      simp only [insertUsersRow, hd, if_true] at hok
      cases hok
    | false =>
      rw [Register] at hok
      simp only [insertUsersRow, hd, Bool.false_eq_true, if_false] at hok
      cases hok
      rfl

/-- C9 witness: a hash function that reports an error ("bcrypt failure")
with an empty digest behaves exactly like one reporting none, and the empty
digest is what gets stored. -/
theorem register_ignores_hash_error_witness :
    Register (fun _ => ("", some "bcrypt failure")) ⟨[], 1⟩ ⟨"J", "j@x.com", "pw", ""⟩ =
      Register (fun _ => ("", none)) ⟨[], 1⟩ ⟨"J", "j@x.com", "pw", ""⟩ ∧
    ([] : List Row) ++ [⟨1, "J", "j@x.com", "", "user"⟩] =
      [⟨1, "J", "j@x.com", "", "user"⟩] := by
  have h := register_ignores_hash_error (fun _ => ("", some "bcrypt failure"))
    (fun _ => ("", none)) ⟨[], 1⟩ ⟨"J", "j@x.com", "pw", ""⟩ (by decide)
  exact ⟨h.1, by decide⟩

/-- C10: a DeleteUser on an id carried by no row returns the success message
"User deleted" with no error and an unchanged store; and for every store
whatsoever the call returns that same message, so deleting a nonexistent id
is indistinguishable from a real deletion. -/
theorem deleteUser_nonexistent_id_indistinguishable
    (db : DBState) (req : DeleteUserRequest)
    (h : ∀ r ∈ db.rows, r.id ≠ req.id) :
    DeleteUser db req = .ok (⟨"User deleted"⟩, db) ∧
    ∀ db₂ : DBState, ∃ st : DBState, DeleteUser db₂ req = .ok (⟨"User deleted"⟩, st) := by
  constructor
  · obtain ⟨rows, nid⟩ := db
    simp [DeleteUser, execDeleteUsers]
    intro a ha
    exact h a ha
  · intro db₂
    exact ⟨_, rfl⟩

/-- C10 witness: deleting id 7 from a store holding only id 1. -/
theorem deleteUser_nonexistent_id_indistinguishable_witness :
    DeleteUser ⟨[⟨1, "J", "j@x.com", "secret", "user"⟩], 2⟩ ⟨7⟩ =
      .ok (⟨"User deleted"⟩, ⟨[⟨1, "J", "j@x.com", "secret", "user"⟩], 2⟩) :=
  (deleteUser_nonexistent_id_indistinguishable
    ⟨[⟨1, "J", "j@x.com", "secret", "user"⟩], 2⟩ ⟨7⟩ (by decide)).1
